import Mathlib

/-!
Verification of `scripts/with-timeout.py` (process supervisor with idle and
hard timeouts, diagnostic sampling and graceful-then-forceful termination).

The Python source is shallowly embedded below.  Wall-clock instants and
configured durations are modelled as `Int` (seconds); each iteration of the
monitoring `while` loop is driven by a `Tick` describing what the environment
(the clock, `selectors.select`, `readline`, `proc.poll`) returns during that
iteration, so the loop body itself is translated statement by statement from
the source.
-/

/-- Model of Python's whitespace accepted by `int(str)` around the digits. -/
def isPySpace (c : Char) : Bool :=
  c = ' ' ∨ c = '\t' ∨ c = '\n' ∨ c = '\r'

/-- Strip leading and trailing whitespace, as `int(str)` does. -/
def pyStrip (cs : List Char) : List Char :=
  ((cs.dropWhile isPySpace).reverse.dropWhile isPySpace).reverse

/-- `true` when there is no `"__"` run (Python rejects doubled underscores). -/
def noDoubleUnd : List Char → Bool
  | '_' :: '_' :: _ => false
  | _ :: rest => noDoubleUnd rest
  | [] => true

def optAll (p : α → Bool) : Option α → Bool
  | none => true
  | some a => p a

/-- Digit group accepted by Python's `int`: nonempty, starts and ends with a
digit, only digits and single interior underscores. -/
def undOk (ds : List Char) : Bool :=
  (!ds.isEmpty) && optAll Char.isDigit ds.head? && optAll Char.isDigit ds.getLast?
    && ds.all (fun c => c.isDigit || c = '_') && noDoubleUnd ds

def digitsToNat (ds : List Char) : Nat :=
  ds.foldl (fun a c => a * 10 + (c.toNat - 48)) 0

/-- Value of an (already sign-free) digit group, `none` on rejection. -/
def digitsUnd (ds : List Char) : Option Int :=
  if undOk ds then some (Int.ofNat (digitsToNat (ds.filter (fun c => ¬ c = '_'))))
  else none

/-- Model of Python `int(s)` for strings: optional surrounding whitespace, an
optional single sign, then digits (underscore separators allowed).  Raising
`ValueError` is modelled as `none`. -/
def pyIntParseL (cs : List Char) : Option Int :=
  let t := pyStrip cs
  if t.head? = some '+' then digitsUnd t.tail
  else if t.head? = some '-' then (digitsUnd t.tail).map Neg.neg
  else digitsUnd t

def pyIntParse (s : String) : Option Int :=
  pyIntParseL s.toList

/-!
PID-extraction pattern.  The source compiles, in a *raw* string,

  `xctest_pid_re = re.compile(r"xctest \\((\\d+)\\)")`

so the regex text is `xctest \\((\\d+)\\)`.  In that text `\\` is a regex
escape for one literal backslash character, so the pattern is: literal
"xctest ", a literal backslash, then group 1 = a literal backslash, one or
more literal `d` characters, and a closing literal backslash.  The
parentheses act as group delimiters, not as literal characters, and the
digit class `\d` never appears.  `matchAt` embeds an anchored attempt of
this pattern; `researchG1` embeds `re.search` (leftmost attempt that
succeeds), returning the text of capture group 1.
-/

/-- Anchored match of the compiled pattern at the head of `cs`, returning
group 1 on success.  The 9-character prefix is `xctest ` followed by the two
literal backslashes; the `d`-run is greedy and must be followed by a literal
backslash (since `d` and backslash differ, greediness loses no matches). -/
def matchTail (rest : List Char) : Option (List Char) :=
  if 1 ≤ (rest.takeWhile (fun c => c = 'd')).length ∧
      (rest.drop (rest.takeWhile (fun c => c = 'd')).length).head? = some '\\' then
    some ('\\' :: (List.replicate (rest.takeWhile (fun c => c = 'd')).length 'd' ++ ['\\']))
  else none

def matchAt (cs : List Char) : Option (List Char) :=
  if cs.take 9 = ['x', 'c', 't', 'e', 's', 't', ' ', '\\', '\\'] then
    matchTail (cs.drop 9)
  else none

/-- `re.search`: try the pattern at each position, leftmost first. -/
def researchG1 : List Char → Option (List Char)
  | [] => none
  | c :: rest =>
    match matchAt (c :: rest) with
    | some g => some g
    | none => researchG1 rest

/-- Lines 81–86 of the source: `m = xctest_pid_re.search(line)`, and on a
match `xctest_pid = int(m.group(1))` with `ValueError` swallowed. -/
def pidUpdate (line : String) (old : Option Int) : Option Int :=
  match researchG1 line.toList with
  | none => old
  | some g =>
    match pyIntParse (String.mk g) with
    | some n => some n
    | none => old

/-- One readiness event delivered by `sel.select`: which stream it is, the
string `readline()` returns (`""` models end-of-stream), and the value
`time.time()` returns when the line is handled. -/
structure EventRead where
  isStdout : Bool
  line : String
  tAt : Int
deriving DecidableEq

/-- Environment of one iteration of the monitoring loop: the clock value at
the hard-timeout check (line 68), the events `sel.select(timeout=1.0)`
returns (line 74), `proc.poll()` after handling them (line 95), the clock at
the idle check (line 99) and `proc.poll()` at line 103 (the last two only
consulted when `select` returned no events). -/
structure Tick where
  tHard : Int
  events : List EventRead
  pollAfterEvents : Option Int
  tIdle : Int
  pollIdle : Option Int
deriving DecidableEq

/-- Mutable state of the loop: `last` (time of last output) and `xctest_pid`. -/
structure LoopState where
  last : Int
  xpid : Option Int
deriving DecidableEq

/-- How an exit from the `while` loop is reached.  `timed_out = True` is set
exactly on the two timeout breaks. -/
inductive Outcome
  | idleTimeout
  | hardTimeout
  | normalExit
deriving DecidableEq

/-- Lines 76–93: handling of one readiness event.  `if line:` guards every
update, so an end-of-stream read (`""`) changes nothing. -/
def procLine (st : LoopState) (e : EventRead) : LoopState :=
  if e.line = "" then st
  else { last := e.tAt, xpid := pidUpdate e.line st.xpid }

/-- Lines 67–104, the monitoring `while True:` loop, driven by a finite list
of ticks.  Returns `none` while the trace runs out with the loop still
spinning.  The branch order is the source's: hard-timeout check first, then
the `if events:` branch (drain lines, then `poll`), else the idle-timeout
check followed by `poll`. -/
def loopRun (idle hard start : Int) : List Tick → LoopState → Option Outcome × LoopState
  | [], st => (none, st)
  | t :: ts, st =>
    if hard ≠ 0 ∧ t.tHard - start > hard then (some Outcome.hardTimeout, st)
    else if t.events ≠ [] then
      (let st2 := t.events.foldl procLine st
       if t.pollAfterEvents.isSome then (some Outcome.normalExit, st2)
       else loopRun idle hard start ts st2)
    else if idle ≠ 0 ∧ t.tIdle - st.last > idle then (some Outcome.idleTimeout, st)
    else if t.pollIdle.isSome then (some Outcome.normalExit, st)
    else loopRun idle hard start ts st

/-- The `timed_out` flag as a function of how the loop ended. -/
def timedOutOf : Option Outcome → Bool
  | some Outcome.idleTimeout => true
  | some Outcome.hardTimeout => true
  | _ => false

/-- Python's `proc.returncode or 0` (line 163): `None` and `0` give `0`,
anything else passes through. -/
def pyOr : Option Int → Int
  | none => 0
  | some v => if v = 0 then 0 else v

/-- Lines 161–163: the final exit code. -/
def runExit (o : Option Outcome) (rc : Option Int) : Int :=
  if timedOutOf o then 124 else pyOr rc

/-!
Timeout handling block, lines 125–149: optional diagnostic sampling, then
`SIGTERM` to the process group, a grace wait of up to ten 0.2-second sleeps,
and `SIGKILL` (via `kill_tree`) if the child is still alive afterwards.
`polls k` is the value the `k`-th call of `proc.poll()` inside this block's
grace phase returns; `pidAlive` is `pid_exists` (lines 108–115).
-/

/-- Observable actions of the timeout-handling block. -/
inductive TEvent
  | sample (pid : Int)
  | sigterm
  | sigkill
deriving DecidableEq

/-- Lines 129–134: `if xctest_pid and pid_exists(xctest_pid): ... elif
pid_exists(proc.pid): ...` — `None` and `0` are falsy. -/
def sampleTarget : Option Int → Int → (Int → Bool) → Option Int
  | some p, childPid, pidAlive =>
    if p ≠ 0 ∧ pidAlive p then some p
    else if pidAlive childPid then some childPid else none
  | none, childPid, pidAlive =>
    if pidAlive childPid then some childPid else none

/-- Lines 129–137: the sampling step; `if sample_target:` is a truthiness
test, so a target of `0` would also be skipped. -/
def sampleEvents (xpid : Option Int) (childPid : Int) (pidAlive : Int → Bool) : List TEvent :=
  match sampleTarget xpid childPid pidAlive with
  | some p => if p ≠ 0 then [TEvent.sample p] else []
  | none => []

/-- Lines 142–146: `for _ in range(10): if proc.poll() is not None: break;
time.sleep(0.2)` followed by the final `if proc.poll() is None:`.  The fuel
argument counts remaining loop iterations, `k` indexes successive `poll`
calls; the result is whether the final poll still reports the child alive,
i.e. whether `kill_tree(..., SIGKILL)` runs. -/
def graceGo (polls : Nat → Option Int) : Nat → Nat → Bool
  | 0, k => (polls k).isNone
  | Nat.succ n, k => if (polls k).isSome then (polls (k + 1)).isNone else graceGo polls n (k + 1)

def killNeeded (polls : Nat → Option Int) : Bool :=
  graceGo polls 10 0

/-- Lines 125–147, exception-free run: the block is entered only when
`timed_out and proc.poll() is None`; it samples (when enabled), sends
`SIGTERM` to the group, and sends `SIGKILL` only when the grace wait ends
with the child still alive. -/
def terminationEvents (timedOut : Bool) (pollEntry : Option Int) (sampleOn : Bool)
    (xpid : Option Int) (childPid : Int) (pidAlive : Int → Bool)
    (polls : Nat → Option Int) : List TEvent :=
  if timedOut ∧ pollEntry = none then
    (if sampleOn then sampleEvents xpid childPid pidAlive else [])
      ++ TEvent.sigterm :: (if killNeeded polls then [TEvent.sigkill] else [])
  else []

/-- `true` until the first signal, which must be `sigterm` (sampling events
may precede it). -/
def firstSignalIsTerm : List TEvent → Bool
  | [] => true
  | TEvent.sigkill :: _ => false
  | TEvent.sigterm :: _ => true
  | TEvent.sample _ :: rest => firstSignalIsTerm rest

/-!
Error model of the signalling path.  `os.killpg` can raise; lines 33–38
(`kill_tree`) swallow exactly `ProcessLookupError`, and the `try`/`except`
at lines 126–149 answers any exception from the block with
`kill_tree(proc, SIGKILL)`.
-/

inductive PyErr
  | processLookup
  | otherError
deriving DecidableEq

/-- Which error (if any) each `os.killpg` call site raises during the
termination block: the `SIGTERM` at line 140, the `kill_tree` `SIGKILL` at
line 147, and the handler's `kill_tree` `SIGKILL` at line 149. -/
structure SigEnv where
  termRes : Option PyErr
  killRes : Option PyErr
  killRes2 : Option PyErr
deriving DecidableEq

/-- Lines 33–38: `kill_tree` — `os.killpg` with `ProcessLookupError`
swallowed; any other exception propagates. -/
def kill_tree : Option PyErr → Except PyErr Unit
  | none => Except.ok ()
  | some PyErr.processLookup => Except.ok ()
  | some e => Except.error e

/-- Lines 126–149 with the error model: `try:` sampling (its own errors are
swallowed internally, lines 117–123) and `os.killpg(..., SIGTERM)`; on any
exception the handler runs `kill_tree(proc, SIGKILL)`; otherwise the grace
wait runs and, if the child is still alive, `kill_tree(proc, SIGKILL)` whose
non-`ProcessLookupError` failure is also caught by the handler. -/
def terminationBlock (env : SigEnv) (polls : Nat → Option Int) : Except PyErr Unit :=
  match env.termRes with
  | some _ => kill_tree env.killRes2
  | none =>
    if killNeeded polls then
      match kill_tree env.killRes with
      | Except.ok _ => Except.ok ()
      | Except.error _ => kill_tree env.killRes2
    else Except.ok ()

/-- The tail of `run_with_timeouts` after the monitoring loop: the guarded
termination block (line 125) followed by the exit-code computation (lines
161–163); an exception escaping the block aborts the function before any
return. -/
def runWithSignals (o : Option Outcome) (pollEntry : Option Int) (env : SigEnv)
    (polls : Nat → Option Int) (rc : Option Int) : Except PyErr Int :=
  match (if timedOutOf o ∧ pollEntry = none then terminationBlock env polls else Except.ok ()) with
  | Except.error e => Except.error e
  | Except.ok _ => Except.ok (runExit o rc)

/-!
Drain step, lines 151–159: `proc.communicate(timeout=3)` with the result
forwarded to the parent streams; `except Exception: pass` swallows a drain
failure (e.g. the 3-second bound being exceeded) without printing anything.
-/

/-- Result of the drain: the `(out, err)` strings, or `Except.error` for any
exception from `communicate` (timeout or otherwise). -/
def drainStep (r : Except Unit (String × String)) : List String × List String × List String :=
  match r with
  | Except.ok (out, err) =>
    ((if out ≠ "" then [out] else []), (if err ≠ "" then [err] else []), [])
  | Except.error _ => ([], [], [])

/-- Exit code and (forwarded stdout, forwarded stderr, log lines printed by
the drain step). -/
def finishRun (o : Option Outcome) (r : Except Unit (String × String)) (rc : Option Int) :
    Int × (List String × List String × List String) :=
  (runExit o rc, drainStep r)

/-!
Configuration, lines 167–171 and 194–209: argparse flags and the two
environment-variable overrides.
-/

/-- Python `bool(s)` for a string. -/
def pyBoolStr (s : String) : Bool :=
  s ≠ ""

/-- Line 195: `bool(os.environ.get("WITH_TIMEOUT_SAMPLE_ON_TIMEOUT", ""))`. -/
def envSampleOnTimeout (env : String → Option String) : Bool :=
  pyBoolStr ((env "WITH_TIMEOUT_SAMPLE_ON_TIMEOUT").getD "")

/-- Line 208: `sample_on_timeout=(args.sample or env_sample_on_timeout)`. -/
def sampleOnConfig (flagSample : Bool) (env : String → Option String) : Bool :=
  flagSample || envSampleOnTimeout env

/-- Line 171: `--sample-seconds` argparse default. -/
def defaultSampleSeconds : Int := 8

/-- Lines 196–202: `WITH_TIMEOUT_SAMPLE_SECONDS` overrides the flag value
only when it is set, non-empty and parses as an integer; a `ValueError` is
swallowed and the flag value kept. -/
def effectiveSampleSeconds (argSeconds : Int) (env : String → Option String) : Int :=
  match env "WITH_TIMEOUT_SAMPLE_SECONDS" with
  | none => argSeconds
  | some s =>
    if s = "" then argSeconds
    else
      match pyIntParse s with
      | some n => n
      | none => argSeconds

/-!
Supporting lemmas about the PID-extraction pattern: any successful capture
group consists only of backslash and `d` characters, and such a string never
parses as an integer, so line 84's `int(m.group(1))` always raises
`ValueError` and the assignment to `xctest_pid` never happens.
-/

lemma mem_of_mem_dropWhile (p : Char → Bool) :
    ∀ (l : List Char) (c : Char), c ∈ l.dropWhile p → c ∈ l := by
  intro l
  induction l with
  | nil => intro c h; simp [List.dropWhile] at h
  | cons a rest ih =>
    intro c h
    by_cases hp : p a
    · simp only [List.dropWhile, hp] at h
      exact List.mem_cons_of_mem a (ih c h)
    · simp only [List.dropWhile, hp] at h
      exact h

lemma mem_of_mem_pyStrip (cs : List Char) (c : Char) (h : c ∈ pyStrip cs) : c ∈ cs := by
  unfold pyStrip at h
  rw [List.mem_reverse] at h
  have h1 := mem_of_mem_dropWhile isPySpace _ _ h
  rw [List.mem_reverse] at h1
  exact mem_of_mem_dropWhile isPySpace _ _ h1

lemma matchTail_shape (rest g : List Char) (h : matchTail rest = some g) :
    ∀ c ∈ g, c = '\\' ∨ c = 'd' := by
  unfold matchTail at h
  split_ifs at h
  intro c hc
  injection h with h
  subst h
  rcases List.mem_cons.mp hc with h1 | h1
  · exact Or.inl h1
  rcases List.mem_append.mp h1 with h2 | h2
  · exact Or.inr (List.eq_of_mem_replicate h2)
  · rcases List.mem_singleton.mp h2 with rfl
    exact Or.inl rfl

lemma matchAt_shape (cs g : List Char) (h : matchAt cs = some g) :
    ∀ c ∈ g, c = '\\' ∨ c = 'd' := by
  unfold matchAt at h
  split_ifs at h
  exact matchTail_shape _ _ h

lemma researchG1_shape : ∀ (cs g : List Char), researchG1 cs = some g →
    ∀ c ∈ g, c = '\\' ∨ c = 'd' := by
  intro cs
  induction cs with
  | nil => intro g h; simp [researchG1] at h
  | cons a rest ih =>
    intro g h c hc
    rw [researchG1] at h
    cases hm : matchAt (a :: rest) with
    | some g2 =>
      rw [hm] at h
      injection h with h
      subst h
      exact matchAt_shape _ _ hm c hc
    | none =>
      rw [hm] at h
      exact ih g h c hc

lemma digitsUnd_head_not_digit (c : Char) (ds : List Char) (h : c.isDigit = false) :
    digitsUnd (c :: ds) = none := by
  have hu : undOk (c :: ds) = false := by
    simp [undOk, optAll, h]
  simp [digitsUnd, hu]

lemma pyIntParseL_backslash_d (cs : List Char)
    (h : ∀ c ∈ cs, c = '\\' ∨ c = 'd') : pyIntParseL cs = none := by
  have hsub : ∀ c ∈ pyStrip cs, c = '\\' ∨ c = 'd' := fun c hc =>
    h c (mem_of_mem_pyStrip cs c hc)
  unfold pyIntParseL
  cases ht : pyStrip cs with
  | nil => simp [digitsUnd, undOk]
  | cons a ds =>
    have ha : a = '\\' ∨ a = 'd' := by
      have : a ∈ pyStrip cs := by rw [ht]; exact List.mem_cons_self a ds
      exact hsub a this
    have hda : a.isDigit = false := by rcases ha with rfl | rfl <;> rfl
    have hplus : ¬ (a :: ds).head? = some '+' := by
      simp only [List.head?]
      intro hco
      injection hco with hco
      rcases ha with rfl | rfl <;> exact absurd hco (by decide)
    have hminus : ¬ (a :: ds).head? = some '-' := by
      simp only [List.head?]
      intro hco
      injection hco with hco
      rcases ha with rfl | rfl <;> exact absurd hco (by decide)
    dsimp only
    rw [if_neg hplus, if_neg hminus]
    exact digitsUnd_head_not_digit a ds hda

/-- C4.  The claim fails because the code is wrong: the pattern is written
`r"xctest \\((\\d+)\\)"`, double-escaping the parentheses and digit class
inside a raw string, so it demands literal backslash and `d` characters, and
its capture group always contains backslashes and so never parses as an
integer.  `discoveredTargetPid` is therefore never set: the line
`"xctest (81823)"` leaves it `None`, and `"xctest (99)"` does not overwrite
an existing value — in fact no line whatsoever changes it, contradicting the
code's own comment "Capture xctest PID from XCTest output (example:
"xctest (81823)")" and the module docstring. -/
theorem pid_discovery_never_fires :
    (∀ (line : String) (old : Option Int), pidUpdate line old = old) ∧
    pidUpdate "xctest (81823)" none = none ∧
    pidUpdate "xctest (99)" (some 81823) = some 81823 := by
  refine ⟨?_, by decide, by decide⟩
  intro line old
  unfold pidUpdate
  cases hg : researchG1 line.toList with
  | none => rfl
  | some g =>
    have hshape := researchG1_shape _ _ hg
    have hnone : pyIntParse (String.mk g) = none :=
      pyIntParseL_backslash_d g hshape
    dsimp only
    rw [hnone]

/-- C3.  Exit-code policy (lines 161–163): a recorded idle or hard timeout
yields `124` no matter what the child's status became meanwhile, and a
natural exit propagates the child's exit code verbatim (zero and nonzero
alike). -/
theorem exit_code_policy :
    (∀ rc : Option Int, runExit (some Outcome.idleTimeout) rc = 124) ∧
    (∀ rc : Option Int, runExit (some Outcome.hardTimeout) rc = 124) ∧
    (∀ c : Int, runExit (some Outcome.normalExit) (some c) = c) ∧
    (∀ rc : Option Int, timedOutOf (some Outcome.normalExit) = false ∧
      runExit none rc = pyOr rc) := by
  refine ⟨fun rc => rfl, fun rc => rfl, ?_, fun rc => ⟨rfl, rfl⟩⟩
  intro c
  unfold runExit timedOutOf pyOr
  by_cases hc : c = 0
  · subst hc; rfl
  · simp [hc]

/-!
Monitoring-loop theorems.  `loopRun_append_none` lets a run be split at any
cycle the loop reaches with no outcome yet recorded.
-/

lemma loopRun_append_none (idle hard start : Int) :
    ∀ (a b : List Tick) (st st' : LoopState),
      loopRun idle hard start a st = (none, st') →
      loopRun idle hard start (a ++ b) st = loopRun idle hard start b st' := by
  intro a
  induction a with
  | nil =>
    intro b st st' h
    simp only [loopRun] at h
    rw [Prod.mk.injEq] at h
    obtain ⟨-, rfl⟩ := h
    rw [List.nil_append]
  | cons t ts ih =>
    intro b st st' h
    rw [List.cons_append]
    simp only [loopRun] at h ⊢
    split_ifs at h ⊢ <;> first | (simp at h) | (exact ih _ _ _ h)

/-- A tick whose two registered streams are both at end-of-stream: `select`
reports both readable immediately, `readline` returns `""`, and the child is
still alive. -/
def eofTick (i : Int) : Tick :=
  ⟨i, [⟨true, "", i⟩, ⟨false, "", i⟩], none, i, none⟩

/-- A tick in which `select` times out with no events and the child is still
alive. -/
def quietTick (i : Int) : Tick :=
  ⟨i, [], none, i, none⟩

/-- C1.  The claim fails on the code for the case it singles out: when the
child has closed both of its output streams but is still alive, `select`
reports the end-of-stream pipes as readable every cycle, so the loop always
takes the `if events:` branch and the idle check on line 99 — which sits in
the `else` branch — is never reached.  First conjunct: with
`idle_sec = 2` and ten seconds of total silence over EOF streams the loop
records no outcome at all (no idle timeout, no exit code 124).  Second
conjunct: under the identical timing but with `select` returning no events
(streams still open), the idle timeout is recorded, showing the divergence
is caused purely by the EOF readability.  This contradicts the module
docstring "Idle timeout: if no new output is seen for N seconds, the process
is killed". -/
theorem idle_timeout_missed_when_streams_closed :
    loopRun 2 0 0 [eofTick 0, eofTick 1, eofTick 2, eofTick 3, eofTick 4,
        eofTick 5, eofTick 6, eofTick 7, eofTick 8, eofTick 9] ⟨0, none⟩
      = (none, ⟨0, none⟩) ∧
    loopRun 2 0 0 [quietTick 0, quietTick 1, quietTick 2, quietTick 3, quietTick 4,
        quietTick 5, quietTick 6, quietTick 7, quietTick 8, quietTick 9] ⟨0, none⟩
      = (some Outcome.idleTimeout, ⟨0, none⟩) := by
  constructor
  · decide
  · decide

/-- C2.  If the loop reaches a cycle at whose start the hard limit is
exceeded (`hard_sec` nonzero and `now - start > hard_sec`), it records the
hard timeout at once — the check on line 68 runs before `select`, before any
reading and before the idle check, so this holds whatever output the tick
would have delivered and even if the idle condition also holds in the same
cycle — the final exit code is 124, and the child (still alive at the
termination block) is sent `SIGTERM`. -/
theorem hard_timeout_priority :
    ∀ (idle hard start : Int) (pre : List Tick) (t : Tick) (ts : List Tick)
      (st st' : LoopState) (rc : Option Int),
      hard ≠ 0 → t.tHard - start > hard →
      loopRun idle hard start pre st = (none, st') →
      (loopRun idle hard start (pre ++ t :: ts) st).1 = some Outcome.hardTimeout ∧
      runExit (loopRun idle hard start (pre ++ t :: ts) st).1 rc = 124 ∧
      (∀ (sampleOn : Bool) (xp : Option Int) (cp : Int) (al : Int → Bool)
        (polls : Nat → Option Int),
        TEvent.sigterm ∈ terminationEvents true none sampleOn xp cp al polls) := by
  intro idle hard start pre t ts st st' rc hh ht hpre
  have hrw := loopRun_append_none idle hard start pre (t :: ts) st st' hpre
  rw [hrw]
  have hstep : loopRun idle hard start (t :: ts) st' = (some Outcome.hardTimeout, st') := by
    simp only [loopRun]
    rw [if_pos ⟨hh, ht⟩]
  rw [hstep]
  refine ⟨rfl, rfl, ?_⟩
  intro sampleOn xp cp al polls
  unfold terminationEvents
  rw [if_pos ⟨rfl, rfl⟩]
  exact List.mem_append_right _ (List.mem_cons_self _ _)

theorem hard_timeout_priority_witness :
    (loopRun 3 5 0 ([] ++ ⟨6, [⟨true, "hello", 6⟩], none, 6, none⟩ :: []) ⟨0, none⟩).1
      = some Outcome.hardTimeout :=
  (hard_timeout_priority 3 5 0 [] ⟨6, [⟨true, "hello", 6⟩], none, 6, none⟩ [] ⟨0, none⟩
    ⟨0, none⟩ none (by decide) (by decide) rfl).1

/-!
Instrumented monitor for C7: the same loop, logging every timeout check it
performs and every outcome it records, so that "first detected condition
wins and monitoring stops" is a property of the log.
-/

inductive MonEvent
  | hardCheck
  | idleCheck
  | recorded (o : Outcome)
deriving DecidableEq

def isRecorded : MonEvent → Bool
  | MonEvent.recorded _ => true
  | _ => false

/-- Event log of the monitoring loop, branch for branch the same control
flow as `loopRun`. -/
def loopLog (idle hard start : Int) : List Tick → LoopState → List MonEvent
  | [], _ => []
  | t :: ts, st =>
    MonEvent.hardCheck ::
      (if hard ≠ 0 ∧ t.tHard - start > hard then [MonEvent.recorded Outcome.hardTimeout]
       else if t.events ≠ [] then
         (if t.pollAfterEvents.isSome then [MonEvent.recorded Outcome.normalExit]
          else loopLog idle hard start ts (t.events.foldl procLine st))
       else
         MonEvent.idleCheck ::
           (if idle ≠ 0 ∧ t.tIdle - st.last > idle then [MonEvent.recorded Outcome.idleTimeout]
            else if t.pollIdle.isSome then [MonEvent.recorded Outcome.normalExit]
            else loopLog idle hard start ts st))

/-- Nothing — no check, no second outcome — follows a recorded outcome. -/
def stopsAfterRecord : List MonEvent → Bool
  | [] => true
  | MonEvent.recorded _ :: rest => rest.isEmpty
  | _ :: rest => stopsAfterRecord rest

lemma stopsAfterRecord_hardCheck (rest : List MonEvent) :
    stopsAfterRecord (MonEvent.hardCheck :: rest) = stopsAfterRecord rest := rfl

lemma stopsAfterRecord_idleCheck (rest : List MonEvent) :
    stopsAfterRecord (MonEvent.idleCheck :: rest) = stopsAfterRecord rest := rfl

lemma countRecorded_le_one (l : List MonEvent) (h : stopsAfterRecord l = true) :
    l.countP isRecorded ≤ 1 := by
  induction l with
  | nil => simp
  | cons a rest ih =>
    cases a with
    | recorded o =>
      rw [show stopsAfterRecord (MonEvent.recorded o :: rest) = rest.isEmpty from rfl] at h
      rw [List.isEmpty_iff] at h
      subst h
      simp [isRecorded]
    | hardCheck =>
      rw [stopsAfterRecord_hardCheck] at h
      rw [List.countP_cons]
      have := ih h
      simp [isRecorded]
      omega
    | idleCheck =>
      rw [stopsAfterRecord_idleCheck] at h
      rw [List.countP_cons]
      have := ih h
      simp [isRecorded]
      omega

lemma stops_loopLog (idle hard start : Int) :
    ∀ (ts : List Tick) (st : LoopState),
      stopsAfterRecord (loopLog idle hard start ts st) = true := by
  intro ts
  induction ts with
  | nil => intro st; rfl
  | cons t rest ih =>
    intro st
    simp only [loopLog, stopsAfterRecord_hardCheck]
    split_ifs <;> first | rfl | (exact ih _)

/-- C7.  In every run at most one outcome is ever recorded, and the log ends
at the first recorded outcome: no further hard/idle checks and no second
outcome follow it — the loop `break`s immediately on detection. -/
theorem single_outcome_invariant :
    ∀ (idle hard start : Int) (ts : List Tick) (st : LoopState),
      stopsAfterRecord (loopLog idle hard start ts st) = true ∧
      (loopLog idle hard start ts st).countP isRecorded ≤ 1 := by
  intro idle hard start ts st
  refine ⟨stops_loopLog idle hard start ts st, ?_⟩
  exact countRecorded_le_one _ (stops_loopLog idle hard start ts st)

lemma sampleEvents_shape (xpid : Option Int) (childPid : Int) (pidAlive : Int → Bool) :
    sampleEvents xpid childPid pidAlive = [] ∨
    ∃ p, sampleEvents xpid childPid pidAlive = [TEvent.sample p] := by
  unfold sampleEvents
  cases sampleTarget xpid childPid pidAlive with
  | none => exact Or.inl rfl
  | some p =>
    dsimp only
    by_cases hp : p ≠ 0
    · exact Or.inr ⟨p, by rw [if_pos hp]⟩
    · exact Or.inl (by rw [if_neg hp])

/-- C5.  Escalation ordering (lines 125–147): a run that did not time out
sends no signals at all; whenever any signal is sent, the first one is the
graceful `SIGTERM` to the process group (only sampling may precede it); and
`SIGKILL` is sent only when the grace wait — ten polls at 0.2-second
spacing, about two seconds — ends with the child still alive, in which case
the `SIGTERM` was already sent. -/
theorem escalation_order :
    ∀ (timedOut : Bool) (pollEntry : Option Int) (sampleOn : Bool) (xpid : Option Int)
      (childPid : Int) (pidAlive : Int → Bool) (polls : Nat → Option Int),
      (timedOut = false →
        terminationEvents timedOut pollEntry sampleOn xpid childPid pidAlive polls = []) ∧
      firstSignalIsTerm
        (terminationEvents timedOut pollEntry sampleOn xpid childPid pidAlive polls) = true ∧
      (TEvent.sigkill ∈ terminationEvents timedOut pollEntry sampleOn xpid childPid pidAlive polls →
        killNeeded polls = true ∧
        TEvent.sigterm ∈ terminationEvents timedOut pollEntry sampleOn xpid childPid pidAlive polls) := by
  intro timedOut pollEntry sampleOn xpid childPid pidAlive polls
  unfold terminationEvents
  by_cases hc : timedOut = true ∧ pollEntry = none
  · rw [if_pos hc]
    have hS : (if sampleOn then sampleEvents xpid childPid pidAlive else []) = [] ∨
        ∃ p, (if sampleOn then sampleEvents xpid childPid pidAlive else [])
          = [TEvent.sample p] := by
      by_cases hs : sampleOn = true
      · rw [if_pos hs]; exact sampleEvents_shape _ _ _
      · rw [if_neg hs]; exact Or.inl rfl
    refine ⟨?_, ?_, ?_⟩
    · intro hf
      rw [hf] at hc
      exact absurd hc.1 (by simp)
    · rcases hS with h | ⟨p, h⟩ <;> rw [h] <;> rfl
    · intro hmem
      by_cases hk : killNeeded polls = true
      · exact ⟨hk, List.mem_append_right _ (List.mem_cons_self _ _)⟩
      · exfalso
        rw [if_neg hk] at hmem
        rcases hS with h | ⟨p, h⟩ <;> rw [h] at hmem <;> simp at hmem
  · rw [if_neg hc]
    exact ⟨fun _ => rfl, rfl, fun hmem => absurd hmem (by simp)⟩

theorem escalation_order_witness :
    terminationEvents false none true (some 7) 5 (fun _ => true) (fun _ => none) = [] :=
  (escalation_order false none true (some 7) 5 (fun _ => true) (fun _ => none)).1 rfl

/-- C6.  Diagnostic sampling on timeout (lines 125–140): the target is the
discovered `xctest_pid` when it is truthy and still alive, otherwise the
child's own pid when alive, otherwise sampling is skipped; and whenever the
sampler runs it is the very first action of the block — in particular it
happens before `SIGTERM`, which the block always sends. -/
theorem sample_target_preference :
    ∀ (xpid : Option Int) (childPid : Int) (pidAlive : Int → Bool) (polls : Nat → Option Int),
      (∀ p : Int, xpid = some p → p ≠ 0 → pidAlive p = true →
        sampleTarget xpid childPid pidAlive = some p) ∧
      ((∀ p : Int, xpid = some p → p = 0 ∨ pidAlive p = false) → pidAlive childPid = true →
        sampleTarget xpid childPid pidAlive = some childPid) ∧
      ((∀ p : Int, xpid = some p → p = 0 ∨ pidAlive p = false) → pidAlive childPid = false →
        sampleTarget xpid childPid pidAlive = none ∧
        (∀ q : Int, TEvent.sample q ∉
          terminationEvents true none true xpid childPid pidAlive polls)) ∧
      (∀ q : Int, sampleTarget xpid childPid pidAlive = some q → q ≠ 0 →
        (terminationEvents true none true xpid childPid pidAlive polls).head?
          = some (TEvent.sample q)) ∧
      TEvent.sigterm ∈ terminationEvents true none true xpid childPid pidAlive polls := by
  intro xpid childPid pidAlive polls
  have hdeadNo : ∀ p : Int, (p = 0 ∨ pidAlive p = false) → ¬ (p ≠ 0 ∧ pidAlive p = true) := by
    intro p h hand
    rcases h with h | h
    · exact hand.1 h
    · rw [h] at hand; exact absurd hand.2 (by simp)
  refine ⟨?_, ?_, ?_, ?_, ?_⟩
  · intro p hx hp ha
    subst hx
    simp only [sampleTarget]
    rw [if_pos ⟨hp, ha⟩]
  · intro hdead halive
    cases xpid with
    | none => simp only [sampleTarget]; rw [if_pos halive]
    | some p =>
      simp only [sampleTarget]
      rw [if_neg (hdeadNo p (hdead p rfl)), if_pos halive]
  · intro hdead hchild
    have hchildNo : ¬ (pidAlive childPid = true) := by rw [hchild]; simp
    have htgt : sampleTarget xpid childPid pidAlive = none := by
      cases xpid with
      | none =>
        simp only [sampleTarget]
        rw [if_neg hchildNo]
      | some p =>
        simp only [sampleTarget]
        rw [if_neg (hdeadNo p (hdead p rfl)), if_neg hchildNo]
    have hS : sampleEvents xpid childPid pidAlive = [] := by
      unfold sampleEvents
      rw [htgt]
    refine ⟨htgt, ?_⟩
    intro q
    unfold terminationEvents
    rw [if_pos ⟨rfl, rfl⟩, if_pos rfl, hS]
    by_cases hk : killNeeded polls = true
    · rw [if_pos hk]; simp
    · rw [if_neg hk]; simp
  · intro q hq hq0
    unfold terminationEvents
    rw [if_pos ⟨rfl, rfl⟩, if_pos rfl]
    unfold sampleEvents
    rw [hq]
    dsimp only
    rw [if_pos hq0]
    rfl
  · unfold terminationEvents
    rw [if_pos ⟨rfl, rfl⟩]
    exact List.mem_append_right _ (List.mem_cons_self _ _)

theorem sample_target_preference_witness :
    sampleTarget (some 4242) 77 (fun _ => true) = some 4242 ∧
    (terminationEvents true none true (some 4242) 77 (fun _ => true) (fun _ => none)).head?
      = some (TEvent.sample 4242) := by
  have h := sample_target_preference (some 4242) 77 (fun _ => true) (fun _ => none)
  have h1 := h.1 4242 rfl (by decide) rfl
  exact ⟨h1, h.2.2.2.1 4242 h1 (by decide)⟩

/-- `r` is the kind of failure signalling an already-exited process group
produces: no error at all, or `ProcessLookupError`. -/
def pleOnly (r : Option PyErr) : Prop :=
  r = none ∨ r = some PyErr.processLookup

/-- C8 counterexample.  The claim's "(or other signaling error)" is too
strong: if the graceful `os.killpg(..., SIGTERM)` raises some exception
other than `ProcessLookupError` and the handler's fallback
`kill_tree(proc, SIGKILL)` also fails with a non-`ProcessLookupError`
(`kill_tree` swallows only `ProcessLookupError`, lines 33–38), the exception
escapes `run_with_timeouts` and no exit code is returned. -/
theorem signal_error_can_propagate :
    runWithSignals (some Outcome.hardTimeout) none
      ⟨some PyErr.otherError, none, some PyErr.otherError⟩ (fun _ => none) (some 0)
      = Except.error PyErr.otherError := rfl

/-- C8 amended.  For the failures an already-exited process group actually
produces — success or `ProcessLookupError` at every `os.killpg` site — the
termination path swallows everything: `kill_tree` swallows the lookup error
directly and the `except` handler covers the `SIGTERM` site, so the run
completes with its normal exit code. -/
theorem processLookup_swallowed :
    ∀ (o : Option Outcome) (pollEntry : Option Int) (env : SigEnv)
      (polls : Nat → Option Int) (rc : Option Int),
      pleOnly env.termRes → pleOnly env.killRes → pleOnly env.killRes2 →
      runWithSignals o pollEntry env polls rc = Except.ok (runExit o rc) := by
  intro o pollEntry env polls rc h1 h2 h3
  have hkt2 : kill_tree env.killRes2 = Except.ok () := by
    rcases h3 with h3 | h3 <;> rw [h3] <;> rfl
  have hblock : (if timedOutOf o ∧ pollEntry = none then terminationBlock env polls
      else Except.ok ()) = Except.ok () := by
    split_ifs with hc
    · unfold terminationBlock
      rcases h1 with h1 | h1 <;> rw [h1]
      · dsimp only
        split_ifs with hk
        · rcases h2 with h2 | h2 <;> rw [h2] <;> rfl
        · rfl
      · dsimp only
        exact hkt2
    · rfl
  unfold runWithSignals
  rw [hblock]

theorem processLookup_swallowed_witness :
    runWithSignals (some Outcome.idleTimeout) none
      ⟨some PyErr.processLookup, none, none⟩ (fun _ => some 0) (some 3)
      = Except.ok 124 :=
  processLookup_swallowed (some Outcome.idleTimeout) none
    ⟨some PyErr.processLookup, none, none⟩ (fun _ => some 0) (some 3)
    (Or.inr rfl) (Or.inl rfl) (Or.inl rfl)

/-- C9 counterexample.  When `proc.communicate(timeout=3)` fails, lines
158–159 are `except Exception: pass`: nothing is forwarded and — against
the claim — nothing is logged (the log component of the drain step is
empty), while the final exit code is indeed unchanged (124 for a timed-out
run, the child's code otherwise). -/
theorem drain_error_not_logged :
    drainStep (Except.error ()) = ([], [], []) ∧
    (finishRun (some Outcome.hardTimeout) (Except.error ()) (some 7)).1 = 124 ∧
    (finishRun (some Outcome.normalExit) (Except.error ()) (some 7)).1 = 7 := by
  refine ⟨rfl, rfl, ?_⟩
  decide

/-- C9 amended.  After termination the remaining buffered output of both
streams is drained by `communicate(timeout=3)` and forwarded to the parent
streams; a drain failure is silently swallowed — nothing is forwarded and
nothing is logged — and in every case the final exit code is unaffected by
the drain result. -/
theorem drain_silent_and_exit_preserved :
    ∀ (o : Option Outcome) (rc : Option Int) (r : Except Unit (String × String)),
      (finishRun o r rc).1 = runExit o rc ∧
      (∀ out err, r = Except.ok (out, err) →
        (finishRun o r rc).2 = ((if out ≠ "" then [out] else []),
          (if err ≠ "" then [err] else []), [])) ∧
      (r = Except.error () → (finishRun o r rc).2 = ([], [], [])) := by
  intro o rc r
  refine ⟨rfl, ?_, ?_⟩
  · intro out err h
    subst h
    rfl
  · intro h
    subst h
    rfl

theorem drain_silent_witness :
    (finishRun (some Outcome.idleTimeout) (Except.error ()) (some 5)).2 = ([], [], []) :=
  (drain_silent_and_exit_preserved (some Outcome.idleTimeout) (some 5)
    (Except.error ())).2.2 rfl

/-- C10.  Sampling is enabled exactly when `--sample` was passed or
`WITH_TIMEOUT_SAMPLE_ON_TIMEOUT` is set to a non-empty string — Python's
`bool(str)` truthiness, so `"0"` and `"false"` also enable it — and a
`WITH_TIMEOUT_SAMPLE_SECONDS` value that does not parse as an integer is
silently ignored in favour of the `--sample-seconds` value, whose argparse
default is 8. -/
theorem sampling_config_gate :
    ∀ (flag : Bool) (env : String → Option String),
      (sampleOnConfig flag env = true ↔
        flag = true ∨ ((env "WITH_TIMEOUT_SAMPLE_ON_TIMEOUT").getD "" ≠ "")) ∧
      sampleOnConfig false (fun _ => some "0") = true ∧
      sampleOnConfig false (fun _ => some "false") = true ∧
      sampleOnConfig false (fun _ => none) = false ∧
      defaultSampleSeconds = 8 ∧
      (∀ s : String, pyIntParse s = none →
        effectiveSampleSeconds defaultSampleSeconds (fun _ => some s)
          = defaultSampleSeconds) ∧
      effectiveSampleSeconds defaultSampleSeconds (fun _ => some "12") = 12 := by
  intro flag env
  refine ⟨?_, by decide, by decide, by decide, rfl, ?_, by decide⟩
  · simp [sampleOnConfig, envSampleOnTimeout, pyBoolStr]
  · intro s hs
    unfold effectiveSampleSeconds
    dsimp only
    by_cases hs0 : s = ""
    · rw [if_pos hs0]
    · rw [if_neg hs0, hs]

theorem sampling_config_gate_witness :
    effectiveSampleSeconds defaultSampleSeconds (fun _ => some "notanint")
      = defaultSampleSeconds :=
  (sampling_config_gate false (fun _ => some "notanint")).2.2.2.2.2.1 "notanint" (by decide)
